import Mathlib

/-!
# Verification of the `dropin-request` translation layer

A shallow embedding of the option-translation, response-adaptation and
instance-factory logic of `dropin-request` (src/dropin-request.js, with the
cookie-jar variant from the second source file).  JavaScript objects are
modelled as insertion-ordered association lists, JavaScript truthiness is made
explicit, and the platform primitives the code calls (WHATWG URL,
URLSearchParams serialization, JSON.parse / JSON.stringify, base64, fetch)
are modelled as executable Lean functions.
-/

set_option autoImplicit false

namespace Dropin

/-! ## JavaScript object model

A JS object with string keys, as an insertion-ordered association list.
Assignment to an existing key updates the value in place (keeping the key's
original position, as JS does); assignment to a new key appends it.
Spread `\x7b ...a, ...b \x7d` starts from `a`'s entries and assigns each entry of
`b` in order. -/

abbrev Obj (v : Type) : Type := List (String × v)

def Obj.get {v : Type} : Obj v → String → Option v
  | [], _ => none
  | (k', x) :: rest, k => if k' = k then some x else Obj.get rest k

def Obj.set {v : Type} : Obj v → String → v → Obj v
  | [], k, x => [(k, x)]
  | (k', y) :: rest, k, x =>
      if k' = k then (k, x) :: rest else (k', y) :: Obj.set rest k x

/-- Object spread `\x7b ...a, ...b \x7d`: assign every entry of `b`, in order,
starting from the entries of `a`. -/
def Obj.spread {v : Type} (a b : Obj v) : Obj v :=
  b.foldl (fun m p => m.set p.1 p.2) a

/-- The keys of an object. -/
def Obj.keys {v : Type} (m : Obj v) : List String := m.map Prod.fst

/-- Well-formedness: a real JS object never holds the same key twice. -/
def Obj.WF {v : Type} (m : Obj v) : Prop := m.keys.Nodup

instance {v : Type} (m : Obj v) : Decidable (Obj.WF m) :=
  inferInstanceAs (Decidable (List.Nodup _))

/-! ## JavaScript truthiness for optional strings and numbers -/

/-- Truthiness of a possibly-absent string: `undefined` and `""` are falsy. -/
def strTruthy : Option String → Bool
  | none => false
  | some s => s ≠ ""

/-- Model of the platform primitive `String.prototype.toUpperCase`,
character-wise (structural, so it evaluates by reduction). -/
def jsToUpperCase (s : String) : String :=
  String.mk (s.data.map Char.toUpper)

/-- `a || dflt` for a possibly-absent string `a` and a literal default. -/
def jsStrOr (a : Option String) (dflt : String) : String :=
  match a with
  | some s => if s = "" then dflt else s
  | none => dflt

/-! ## JSON values

Model of the JSON-representable JavaScript values the library passes around
as bodies and option values.  Numbers are restricted to integers in this
model. -/

inductive JsonVal where
  | null
  | bool (b : Bool)
  | num (n : Int)
  | str (s : String)
  | arr (xs : List JsonVal)
  | obj (fields : List (String × JsonVal))
deriving BEq

/-- JS truthiness of a JSON value (`null`, `false`, `0` and `""` are falsy;
every object or array is truthy). -/
def JsonVal.truthy : JsonVal → Bool
  | .null => false
  | .bool b => b
  | .num n => n != 0
  | .str s => s != ""
  | .arr _ => true
  | .obj _ => true

/-- Escape one character for a JSON string literal (model of the escaping
performed by `JSON.stringify`). -/
def escapeJsonChar (c : Char) : String :=
  if c = '"' then "\\\""
  else if c = '\\' then "\\\\"
  else if c = '\n' then "\\n"
  else if c = '\t' then "\\t"
  else if c = '\r' then "\\r"
  else String.singleton c

def escapeJsonString (s : String) : String :=
  "\"" ++ String.join (s.data.map escapeJsonChar) ++ "\""

mutual

/-- Model of the platform primitive `JSON.stringify` on the modelled values. -/
def JsonVal.stringify : JsonVal → String
  | .null => "null"
  | .bool true => "true"
  | .bool false => "false"
  | .num n => toString n
  | .str s => escapeJsonString s
  | .arr xs => "[" ++ stringifyList xs ++ "]"
  | .obj fs => "\x7b" ++ stringifyFields fs ++ "\x7d"

def stringifyList : List JsonVal → String
  | [] => ""
  | [x] => JsonVal.stringify x
  | x :: rest => JsonVal.stringify x ++ "," ++ stringifyList rest

def stringifyFields : List (String × JsonVal) → String
  | [] => ""
  | [(k, x)] => escapeJsonString k ++ ":" ++ JsonVal.stringify x
  | (k, x) :: rest =>
      escapeJsonString k ++ ":" ++ JsonVal.stringify x ++ "," ++ stringifyFields rest

end

/-! ## UTF-8 and the form-urlencoded serializer -/

/-- UTF-8 encoding of one code point, as a list of byte values. -/
def utf8Bytes (c : Char) : List Nat :=
  let n := c.toNat
  if n < 0x80 then [n]
  else if n < 0x800 then
    [0xC0 ||| (n >>> 6), 0x80 ||| (n &&& 0x3F)]
  else if n < 0x10000 then
    [0xE0 ||| (n >>> 12), 0x80 ||| ((n >>> 6) &&& 0x3F), 0x80 ||| (n &&& 0x3F)]
  else
    [0xF0 ||| (n >>> 18), 0x80 ||| ((n >>> 12) &&& 0x3F),
     0x80 ||| ((n >>> 6) &&& 0x3F), 0x80 ||| (n &&& 0x3F)]

def strBytes (s : String) : List Nat :=
  s.data.flatMap utf8Bytes

def hexUpperDigit (n : Nat) : Char :=
  "0123456789ABCDEF".data.getD n '0'

/-- Bytes left unescaped by the `application/x-www-form-urlencoded`
serializer: ASCII alphanumerics and `*`, `-`, `.`, `_`. -/
def formSafeByte (b : Nat) : Bool :=
  (0x30 ≤ b && b ≤ 0x39) || (0x41 ≤ b && b ≤ 0x5A) || (0x61 ≤ b && b ≤ 0x7A) ||
  (b = 0x2A) || (b = 0x2D) || (b = 0x2E) || (b = 0x5F)

def formEncodeByte (b : Nat) : String :=
  if b = 0x20 then "+"
  else if formSafeByte b then String.singleton (Char.ofNat b)
  else "%" ++ String.singleton (hexUpperDigit (b / 16)) ++
       String.singleton (hexUpperDigit (b % 16))

/-- Model of the platform's `application/x-www-form-urlencoded` percent-encoder
(used both by `URLSearchParams.toString` and by `URL.toString` for the query
component). -/
def formEncodeStr (s : String) : String :=
  String.join ((strBytes s).map formEncodeByte)

/-- Model of `new URLSearchParams(obj).toString()`: serialize the entries in
order as `k=v` pairs joined by `&`, percent-encoding keys and values. -/
def urlSearchParamsToString (entries : Obj String) : String :=
  String.intercalate "&" (entries.map fun p => formEncodeStr p.1 ++ "=" ++ formEncodeStr p.2)

/-! ## Base64 (for HTTP Basic credentials) -/

def base64Digit (n : Nat) : Char :=
  "ABCDEFGHIJKLMNOPQRSTUVWXYZabcdefghijklmnopqrstuvwxyz0123456789+/".data.getD n '='

/-- Model of `Buffer.toString('base64')` over a list of byte values. -/
def base64Encode : List Nat → String
  | [] => ""
  | [b1] =>
      String.mk [base64Digit (b1 >>> 2), base64Digit ((b1 &&& 0x3) <<< 4), '=', '=']
  | [b1, b2] =>
      String.mk [base64Digit (b1 >>> 2), base64Digit (((b1 &&& 0x3) <<< 4) ||| (b2 >>> 4)),
                 base64Digit ((b2 &&& 0xF) <<< 2), '=']
  | b1 :: b2 :: b3 :: rest =>
      String.mk [base64Digit (b1 >>> 2), base64Digit (((b1 &&& 0x3) <<< 4) ||| (b2 >>> 4)),
                 base64Digit (((b2 &&& 0xF) <<< 2) ||| (b3 >>> 6)), base64Digit (b3 &&& 0x3F)]
      ++ base64Encode rest

end Dropin
namespace Dropin

/-! ## JSON parsing (model of the platform primitive `JSON.parse`)

Fuel-indexed recursive-descent parser over the character list.  Faithful to
the JSON grammar except that numbers are restricted to (optionally signed)
integers, matching the `JsonVal` model. -/

def skipWs : List Char → List Char
  | c :: rest =>
      if c = ' ' ∨ c = '\n' ∨ c = '\t' ∨ c = '\r' then skipWs rest else c :: rest
  | [] => []

def hexVal (c : Char) : Option Nat :=
  if '0' ≤ c ∧ c ≤ '9' then some (c.toNat - 48)
  else if 'A' ≤ c ∧ c ≤ 'F' then some (c.toNat - 55)
  else if 'a' ≤ c ∧ c ≤ 'f' then some (c.toNat - 87)
  else none

/-- Parse the body of a JSON string literal (the opening quote already
consumed); returns the decoded characters and the remaining input. -/
def parseStringBody : List Char → Option (List Char × List Char)
  | [] => none
  | '"' :: rest => some ([], rest)
  | '\\' :: rest =>
      match rest with
      | '"' :: r => (parseStringBody r).map fun p => ('"' :: p.1, p.2)
      | '\\' :: r => (parseStringBody r).map fun p => ('\\' :: p.1, p.2)
      | '/' :: r => (parseStringBody r).map fun p => ('/' :: p.1, p.2)
      | 'n' :: r => (parseStringBody r).map fun p => ('\n' :: p.1, p.2)
      | 't' :: r => (parseStringBody r).map fun p => ('\t' :: p.1, p.2)
      | 'r' :: r => (parseStringBody r).map fun p => ('\r' :: p.1, p.2)
      | 'b' :: r => (parseStringBody r).map fun p => ('\x08' :: p.1, p.2)
      | 'f' :: r => (parseStringBody r).map fun p => ('\x0C' :: p.1, p.2)
      | 'u' :: h1 :: h2 :: h3 :: h4 :: r =>
          match hexVal h1, hexVal h2, hexVal h3, hexVal h4 with
          | some a, some b, some c, some d =>
              (parseStringBody r).map fun p =>
                (Char.ofNat (((a * 16 + b) * 16 + c) * 16 + d) :: p.1, p.2)
          | _, _, _, _ => none
      | _ => none
  | c :: rest => (parseStringBody rest).map fun p => (c :: p.1, p.2)

def takeDigits : List Char → List Char × List Char
  | [] => ([], [])
  | c :: rest =>
      if c.isDigit then
        let p := takeDigits rest
        (c :: p.1, p.2)
      else ([], c :: rest)

def digitsToNat (ds : List Char) : Nat :=
  ds.foldl (fun n c => n * 10 + (c.toNat - 48)) 0

/-- Parse an integer JSON number. -/
def parseNum (cs : List Char) : Option (Int × List Char) :=
  let (neg, cs') := match cs with
    | '-' :: rest => (true, rest)
    | _ => (false, cs)
  match takeDigits cs' with
  | ([], _) => none
  | (ds, rest) =>
      let n : Int := Int.ofNat (digitsToNat ds)
      some (if neg then -n else n, rest)

mutual

def parseJsonFuel : Nat → List Char → Option (JsonVal × List Char)
  | 0, _ => none
  | fuel + 1, cs =>
    match skipWs cs with
    | 'n' :: 'u' :: 'l' :: 'l' :: rest => some (.null, rest)
    | 't' :: 'r' :: 'u' :: 'e' :: rest => some (.bool true, rest)
    | 'f' :: 'a' :: 'l' :: 's' :: 'e' :: rest => some (.bool false, rest)
    | '"' :: rest => (parseStringBody rest).map fun p => (.str (String.mk p.1), p.2)
    | '[' :: rest =>
        (match skipWs rest with
         | ']' :: r => some (.arr [], r)
         | r => (parseArrItems fuel r).map fun p => (.arr p.1, p.2))
    | '\x7b' :: rest =>
        (match skipWs rest with
         | '\x7d' :: r => some (.obj [], r)
         | r => (parseObjItems fuel r).map fun p => (.obj p.1, p.2))
    | c :: rest =>
        if c = '-' ∨ c.isDigit then
          (parseNum (c :: rest)).map fun p => (.num p.1, p.2)
        else none
    | [] => none

def parseArrItems : Nat → List Char → Option (List JsonVal × List Char)
  | 0, _ => none
  | fuel + 1, cs => do
    let (v, rest) ← parseJsonFuel fuel cs
    match skipWs rest with
    | ',' :: r => (parseArrItems fuel r).map fun p => (v :: p.1, p.2)
    | ']' :: r => some ([v], r)
    | _ => none

def parseObjItems : Nat → List Char → Option (List (String × JsonVal) × List Char)
  | 0, _ => none
  | fuel + 1, cs =>
    match skipWs cs with
    | '"' :: rest => do
        let (kcs, rest') ← parseStringBody rest
        match skipWs rest' with
        | ':' :: r => do
            let (v, r') ← parseJsonFuel fuel r
            match skipWs r' with
            | ',' :: r'' => (parseObjItems fuel r'').map fun p =>
                ((String.mk kcs, v) :: p.1, p.2)
            | '\x7d' :: r'' => some ([(String.mk kcs, v)], r'')
            | _ => none
        | _ => none
    | _ => none

end

/-- Model of the platform primitive `JSON.parse`; `none` models a thrown
`SyntaxError`.  Trailing whitespace is allowed, trailing garbage is not. -/
def jsonParse (s : String) : Option JsonVal :=
  match parseJsonFuel (2 * s.length + 2) s.data with
  | some (v, rest) => if skipWs rest = [] then some v else none
  | none => none

/-! ## WHATWG URL (the slice of it that the code uses) -/

structure URLM where
  base : String
  query : List (String × String)
  frag : Option String
deriving DecidableEq

def splitFirstAux (c : Char) : List Char → Option (List Char × List Char)
  | [] => none
  | x :: xs =>
      if x = c then some ([], xs)
      else (splitFirstAux c xs).map fun p => (x :: p.1, p.2)

/-- Split a string at the first occurrence of `c`; `none` when absent. -/
def splitFirst (s : String) (c : Char) : String × Option String :=
  match splitFirstAux c s.data with
  | some (a, b) => (String.mk a, some (String.mk b))
  | none => (s, none)

/-- Percent-decode into a byte sequence (`+` decodes to space; an invalid
percent escape is kept literally, as in the WHATWG algorithm). -/
def percentDecodeBytes : List Char → List Nat
  | [] => []
  | '+' :: rest => 0x20 :: percentDecodeBytes rest
  | '%' :: a :: b :: rest =>
      match hexVal a, hexVal b with
      | some ha, some hb => (16 * ha + hb) :: percentDecodeBytes rest
      | _, _ => utf8Bytes '%' ++ percentDecodeBytes (a :: b :: rest)
  | c :: rest => utf8Bytes c ++ percentDecodeBytes rest

/-- Lossy UTF-8 decoding (invalid sequences become U+FFFD). -/
def utf8DecodeAux : List Nat → List Char
  | [] => []
  | b :: rest =>
      if b < 0x80 then Char.ofNat b :: utf8DecodeAux rest
      else if b < 0xC0 then '�' :: utf8DecodeAux rest
      else if b < 0xE0 then
        match rest with
        | b2 :: rest' =>
            Char.ofNat (((b &&& 0x1F) <<< 6) ||| (b2 &&& 0x3F)) :: utf8DecodeAux rest'
        | [] => ['�']
      else if b < 0xF0 then
        match rest with
        | b2 :: b3 :: rest' =>
            Char.ofNat (((b &&& 0xF) <<< 12) ||| ((b2 &&& 0x3F) <<< 6) ||| (b3 &&& 0x3F)) ::
              utf8DecodeAux rest'
        | _ => ['�']
      else
        match rest with
        | b2 :: b3 :: b4 :: rest' =>
            Char.ofNat (((b &&& 0x7) <<< 18) ||| ((b2 &&& 0x3F) <<< 12) |||
              ((b3 &&& 0x3F) <<< 6) ||| (b4 &&& 0x3F)) :: utf8DecodeAux rest'
        | _ => ['�']

def percentDecode (s : String) : String :=
  String.mk (utf8DecodeAux (percentDecodeBytes s.data))

def parseQueryPiece (piece : String) : String × String :=
  match splitFirst piece '=' with
  | (k, some v) => (percentDecode k, percentDecode v)
  | (k, none) => (percentDecode k, "")

/-- Split a character list on every occurrence of a separator character. -/
def splitListOn (c : Char) : List Char → List (List Char)
  | [] => [[]]
  | x :: rest =>
      if x = c then [] :: splitListOn c rest
      else
        match splitListOn c rest with
        | g :: gs => (x :: g) :: gs
        | [] => [[x]]

/-- Model of the `application/x-www-form-urlencoded` parser used for a URL's
query component (empty pieces are skipped). -/
def parseQueryString (qstr : String) : List (String × String) :=
  ((((splitListOn '&' qstr.data).map String.mk).filter (fun p => p ≠ ""))).map
    parseQueryPiece

/-- Split at the first occurrence of `://` (scheme separator). -/
def splitSchemeAux : List Char → Option (List Char × List Char)
  | ':' :: '/' :: '/' :: rest => some ([], rest)
  | x :: rest => (splitSchemeAux rest).map fun p => (x :: p.1, p.2)
  | [] => none

/-- Model of the WHATWG `URL` parser, restricted to pre-normalized absolute
URLs: the part before the query is kept verbatim as `base`, the query is
parsed into ordered key/value pairs, the fragment is kept verbatim.  `none`
models the `TypeError` thrown by `new URL` on input without a
`scheme://rest` shape. -/
def urlParse (s : String) : Option URLM :=
  let ph := splitFirst s '#'
  let pq := splitFirst ph.1 '?'
  match splitSchemeAux pq.1.data with
  | some (scheme, rest) =>
      if scheme ≠ [] ∧ rest ≠ [] then
        some ⟨pq.1, parseQueryString (match pq.2 with | some q => q | none => ""), ph.2⟩
      else none
  | none => none

/-- Model of `URL.toString()` after the search params have been touched: the
query component is re-serialized by the form-urlencoded serializer. -/
def URLM.render (u : URLM) : String :=
  u.base ++
    (if u.query.isEmpty then "" else "?" ++ urlSearchParamsToString u.query) ++
    (match u.frag with | some f => "#" ++ f | none => "")

end Dropin
namespace Dropin

/-! ## Canonical request options

The canonical options record (`finalOptions` in the source).  Fields the
source reads only for truthiness are modelled so that the JS truthiness cases
are representable: absent is `none`, an empty string is `some ""`. -/

structure Options where
  url : Option String := none
  uri : Option String := none
  method : Option String := none
  headers : Obj String := []
  body : Option JsonVal := none
  json : Bool := false
  form : Option (Obj String) := none
  qs : Option (Obj String) := none
  auth : Option (String × String) := none
  encodingNull : Bool := false
  timeout : Nat := 0

inductive ReqError where
  | missingURL
  | invalidURL
deriving DecidableEq

/-- The body value handed to the transport: either text the translator
serialized itself, or a raw caller body passed through unmodified. -/
inductive BodyPayload where
  | text (s : String)
  | raw (v : JsonVal)

/-- The transport-ready request descriptor (`\x7b url, ...fetchOptions \x7d`). -/
structure Descriptor where
  url : String
  method : String
  headers : Obj String
  body : Option BodyPayload := none
  hasTimeoutSignal : Bool := false

/-- `let url = options.url || options.uri; if (!url) throw` —
the resolved target URL, `none` when the source would throw. -/
def resolveUrl (o : Options) : Option String :=
  match (if strTruthy o.url then o.url else o.uri) with
  | some u => if u = "" then none else some u
  | none => none

/-- The `options.auth` step: sets `Authorization: Basic base64(user:pass)`,
overriding any existing value. -/
def applyAuth (o : Options) (h : Obj String) : Obj String :=
  match o.auth with
  | some (user, pass) =>
      h.set "Authorization" ("Basic " ++ base64Encode (strBytes (user ++ ":" ++ pass)))
  | none => h

/-- The body-branch cascade of `translateOptions` (json → form → raw). -/
def applyBody (o : Options) (h : Obj String) : Obj String × Option BodyPayload :=
  match o.body, o.json with
  | some b, true =>
      let h := h.set "Content-Type" "application/json"
      let h := if strTruthy (h.get "Accept") then h else h.set "Accept" "application/json"
      (h, some (.text b.stringify))
  | _, _ =>
    match o.form with
    | some f =>
        (h.set "Content-Type" "application/x-www-form-urlencoded",
         some (.text (urlSearchParamsToString f)))
    | none =>
      match o.body with
      | some b => if b.truthy then (h, some (.raw b)) else (h, none)
      | none => (h, none)

/-- The `options.qs` step: `new URL(url)`, `searchParams.append` for each
entry in order, then `toString()`. -/
def applyQs (o : Options) (url : String) : Except ReqError String :=
  match o.qs with
  | none => .ok url
  | some entries =>
      match urlParse url with
      | none => .error .invalidURL
      | some u => .ok (URLM.render { u with query := u.query ++ entries })

/-- `translateOptions` from src/dropin-request.js: translate request-style
options into fetch-style options.  `Except.error` models a thrown error. -/
def translateOptions (o : Options) : Except ReqError Descriptor :=
  let method := jsToUpperCase (jsStrOr o.method "GET")
  let signal := o.timeout ≠ 0
  match resolveUrl o with
  | none => .error .missingURL
  | some url =>
      let hb := applyBody o (applyAuth o o.headers)
      match applyQs o url with
      | .error e => .error e
      | .ok url' => .ok ⟨url', method, hb.1, hb.2, signal⟩

/-- A cookie jar at the moment of one request, modelled by its
`getCookieString` view: the stored cookie string for each URL. -/
def CookieJarView : Type := String → String

/-- The jar step: `const cookieString = await jar.getCookieString(url);
if (cookieString) headers.Cookie = cookieString` — set the `Cookie` header
only when the jar yields a truthy (non-empty) string. -/
def jarHeaders (o : Options) (jar : Option CookieJarView) (url : String) : Obj String :=
  match jar with
  | some j => if j url ≠ "" then Obj.set o.headers "Cookie" (j url) else o.headers
  | none => o.headers

/-- `translateOptions` from the cookie-jar variant (second source file): same
as `translateOptions` plus the jar step, which runs after URL resolution and
before `auth`, and sets the `Cookie` header only when the jar yields a
non-empty (truthy) string. -/
def translateOptionsJar (o : Options) (jar : Option CookieJarView) :
    Except ReqError Descriptor :=
  let method := jsToUpperCase (jsStrOr o.method "GET")
  let signal := o.timeout ≠ 0
  match resolveUrl o with
  | none => .error .missingURL
  | some url =>
      let hb := applyBody o (applyAuth o (jarHeaders o jar url))
      match applyQs o url with
      | .error e => .error e
      | .ok url' => .ok ⟨url', method, hb.1, hb.2, signal⟩

/-! ## Transport responses and the response adapter -/

/-- A completed transport response (the fetch `Response` object), with the
raw body text it would deliver. -/
structure TransportResponse where
  status : Nat
  statusText : String
  headers : Obj String
  bodyText : String

/-- `res.ok`: status in [200, 300). -/
def TransportResponse.isOk (r : TransportResponse) : Bool :=
  200 ≤ r.status && r.status < 300

/-- The value `consumeBody` resolves with. -/
inductive BodyResult where
  | buffer (bytes : List Nat)
  | json (v : JsonVal)
  | text (s : String)

/-- `consumeBody` from src/dropin-request.js: binary when `encoding === null`,
else JSON parse with silent fallback to the raw text when `json` is truthy,
else text. -/
def consumeBody (r : TransportResponse) (o : Options) : BodyResult :=
  if o.encodingNull then .buffer (strBytes r.bodyText)
  else if o.json then
    match jsonParse r.bodyText with
    | some v => .json v
    | none => .text r.bodyText
  else .text r.bodyText

/-- How one dispatched transport call can come back: a completed response, a
transport-level rejection before any response (network error), or a rejection
while reading the body after the response metadata already arrived. -/
inductive FetchOutcome where
  | ok (res : TransportResponse)
  | networkError (msg : String)
  | bodyError (status : Nat) (headers : Obj String) (msg : String)

/-! ## Callback mode (`createRequestInstance`, callback branch) -/

inductive CbError where
  | sync (e : ReqError)
  | http (statusCode : Nat)
  | transport (msg : String)

/-- The legacy response object built for the callback
(`responseForCallback`). -/
structure LegacyResponse where
  statusCode : Nat
  headers : Obj String
  body : Option BodyResult := none

/-- The `(error, legacyResponse, body)` triple the callback receives. -/
structure CallbackArgs where
  error : Option CbError
  response : Option LegacyResponse
  body : Option BodyResult

/-- The callback branch of `mainRequest` in src/dropin-request.js, as a
function of the canonical options and the transport outcome.  A synchronous
`translateOptions` throw reaches the callback as `(err, null, null)`; a fetch
rejection reaches it as `(err, responseForCallback || null, null)`. -/
def callbackRun (finalOptions : Options) (outcome : FetchOutcome) : CallbackArgs :=
  match translateOptions finalOptions with
  | .error e => ⟨some (.sync e), none, none⟩
  | .ok _d =>
    match outcome with
    | .networkError m => ⟨some (.transport m), none, none⟩
    | .bodyError st hs m => ⟨some (.transport m), some ⟨st, hs, none⟩, none⟩
    | .ok res =>
        let body := consumeBody res finalOptions
        let resp : LegacyResponse := ⟨res.status, res.headers, some body⟩
        if res.status ≥ 400 then ⟨some (.http res.status), some resp, some body⟩
        else ⟨none, some resp, some body⟩

/-! ## Promise mode (`DropinRequest`) -/

/-- The synchronous part of the no-callback path: the `DropinRequest`
constructor.  It stores the options and schedules `_init` on the next tick;
it performs no validation, so it is total — the `Except` result records that
no exception can escape construction. -/
structure DropinState where
  options : Options
  isPiped : Bool

def dropinConstruct (o : Options) : Except ReqError DropinState :=
  .ok ⟨o, false⟩

/-- How the promise view of a `DropinRequest` settles. -/
inductive PromiseOutcome where
  | resolvedBody (b : BodyResult)
  | resolvedResponse (res : TransportResponse)
  | rejectedSync (e : ReqError)
  | rejectedHttp (statusCode : Nat) (errBody : BodyResult)
  | rejectedTransport (msg : String)

/-- The observable effect of `DropinRequest._init`: how the promise settles,
which bytes (if any) were forwarded into the stream, and whether an error
event was emitted. -/
structure InitResult where
  promise : PromiseOutcome
  streamed : Option String := none
  errorEmitted : Bool := false

/-- `DropinRequest._init` from src/dropin-request.js, as a function of the
options, the piped flag at response time, and the transport outcome.  On a
non-`ok` response the body is consumed into a rich error and the promise
rejects; on an `ok` response the body is either forwarded to the stream
(piped: promise resolves with the response itself) or buffered via
`consumeBody` (promise resolves with the parsed body). -/
def dropinInit (o : Options) (isPiped : Bool) (outcome : FetchOutcome) : InitResult :=
  match translateOptions o with
  | .error e => ⟨.rejectedSync e, none, true⟩
  | .ok _d =>
    match outcome with
    | .networkError m => ⟨.rejectedTransport m, none, true⟩
    | .bodyError _ _ m => ⟨.rejectedTransport m, none, true⟩
    | .ok res =>
        if !res.isOk then
          ⟨.rejectedHttp res.status (consumeBody res o), none, true⟩
        else if isPiped then
          ⟨.resolvedResponse res, some res.bodyText, false⟩
        else
          ⟨.resolvedBody (consumeBody res o), none, false⟩

end Dropin
namespace Dropin

/-! ## `.defaults()` merging (`mainRequest.defaults`)

The default-options record is modelled with the `headers` key split out from
the remaining keys, since the source treats it specially. -/

structure DefaultsRec where
  headers : Option (Obj String)
  other : Obj JsonVal

/-- `JSON.parse(JSON.stringify(defaultOptions))`: on the modelled
(JSON-representable) option records the round-trip is the identity. -/
def jsonClone (d : DefaultsRec) : DefaultsRec := ⟨d.headers, d.other⟩

/-- One `.defaults(newDefaults)` step from src/dropin-request.js: deep-clone
the current defaults, spread the new ones over them, and key-wise-merge the
`headers` maps when both records carry one. -/
def defaultsStep (d x : DefaultsRec) : DefaultsRec :=
  let cur := jsonClone d
  let spreadHeaders : Option (Obj String) :=
    match x.headers with
    | some nh => some nh
    | none => cur.headers
  let mergedHeaders :=
    match cur.headers, x.headers with
    | some ch, some nh => some (Obj.spread ch nh)
    | _, _ => spreadHeaders
  ⟨mergedHeaders, Obj.spread cur.other x.other⟩

/-- Modelled from the spec's words: `merge(x, y)` is partial-wins per key
except the headers map, which is merged key-wise. -/
def specMerge (x y : DefaultsRec) : DefaultsRec :=
  ⟨match x.headers, y.headers with
    | some a, some b => some (Obj.spread a b)
    | some a, none => some a
    | none, h => h,
   Obj.spread x.other y.other⟩

/-- The effective value of a possibly-absent headers map at one key. -/
def hdrView : Option (Obj String) → String → Option String
  | none, _ => none
  | some h, k => h.get k

/-- Two defaults records are effectively equal: same headers presence, same
header value at every key, same value at every other option key. -/
def DefaultsRec.equiv (a b : DefaultsRec) : Prop :=
  a.headers.isSome = b.headers.isSome ∧
  (∀ k, hdrView a.headers k = hdrView b.headers k) ∧
  (∀ k, a.other.get k = b.other.get k)

/-- Well-formed defaults record: object keys are duplicate-free (an absent
headers map counts as the empty one). -/
def DefaultsRec.WF (d : DefaultsRec) : Prop :=
  d.other.WF ∧ (d.headers.getD []).WF

/-! ## Heap model for the frame claims

A small mutable-object heap: addresses are indices, objects map string keys
to primitive values or references.  Only the option-preparation code path is
embedded at this level, to express what the value-level model cannot: that
option merging and the verb-method override never write to a caller-supplied
object. -/

inductive HVal where
  | prim (s : String)
  | ref (a : Nat)
deriving DecidableEq

abbrev HObj := Obj HVal

structure Heap where
  objs : List HObj
deriving DecidableEq

def Heap.size (h : Heap) : Nat := h.objs.length

def Heap.alloc (h : Heap) (o : HObj) : Heap × Nat :=
  (⟨h.objs ++ [o]⟩, h.objs.length)

def Heap.getObj (h : Heap) (a : Nat) : HObj := h.objs.getD a []

def Heap.lookup (h : Heap) (a : Nat) : Option HObj := h.objs[a]?

def Heap.setField (h : Heap) (a : Nat) (k : String) (v : HVal) : Heap :=
  ⟨h.objs.set a ((h.getObj a).set k v)⟩

/-- `h'` preserves every address of `h` below `n`. -/
def Heap.agreesBelow (h h' : Heap) (n : Nat) : Prop :=
  ∀ a, a < n → h'.lookup a = h.lookup a

/-- The caller's `uri` argument: an object reference, a string, or anything
else (`typeof uri` dispatch in the source). -/
inductive JsArg where
  | obj (a : Nat)
  | str (s : String)
  | other

/-- The `opts`-building prefix shared by `mainRequest` and the verb
methods: `let opts = \x7b\x7d`, replaced by a fresh copy `\x7b ...uri \x7d` when the
`uri` argument is an object or written in place when it is a string, then
replaced by the fresh spread `\x7b ...opts, ...options \x7d` when the `options`
argument is an object.  Returns the heap and the address of `opts`. -/
def buildOpts (h : Heap) (uriArg : JsArg) (optionsArg : Option Nat) : Heap × Nat :=
  let p1 := h.alloc []
  let p2 :=
    match uriArg with
    | .obj a => p1.1.alloc (p1.1.getObj a)
    | .str s => (p1.1.setField p1.2 "url" (.prim s), p1.2)
    | .other => p1
  match optionsArg with
  | some a => p2.1.alloc (Obj.spread (p2.1.getObj p2.2) (p2.1.getObj a))
  | none => p2

/-- The option-preparation prefix of `mainRequest` (src/dropin-request.js):
`opts` built from the `uri` argument shape, spread with the `options`
argument when it is an object, then `finalOptions = \x7b ...defaultOptions,
...opts \x7d`.  Returns the heap and the address of `finalOptions`.  Every
object it builds is freshly allocated. -/
def mainRequestPrep (h : Heap) (uriArg : JsArg) (optionsArg : Option Nat)
    (defaultsAddr : Nat) : Heap × Nat :=
  let p := buildOpts h uriArg optionsArg
  p.1.alloc (Obj.spread (p.1.getObj defaultsAddr) (p.1.getObj p.2))

/-- A verb-shortcut method (`mainRequest[method]`): builds its own fresh
`opts`, force-sets `opts.method` on that fresh object, then delegates to
`mainRequest` with the fresh object as the `uri` argument. -/
def verbPrep (h : Heap) (uriArg : JsArg) (optionsArg : Option Nat)
    (methodName : String) (defaultsAddr : Nat) : Heap × Nat :=
  let p := buildOpts h uriArg optionsArg
  let h4 := p.1.setField p.2 "method" (.prim (jsToUpperCase methodName))
  mainRequestPrep h4 (.obj p.2) none defaultsAddr

/-- The headers copy in `translateOptions`:
`headers: \x7b ...(options.headers || \x7b\x7d) \x7d` — a fresh object holding the
entries of the caller's headers object. -/
def translateHeadersCopy (h : Heap) (finalAddr : Nat) : Heap × Nat :=
  let hdrFields :=
    match (h.getObj finalAddr).get "headers" with
    | some (.ref a) => h.getObj a
    | _ => []
  h.alloc hdrFields

/-- A later in-place header write (`fetchOptions.headers[k] = v`), performed
only on the freshly allocated headers object. -/
def setHeaderField (h : Heap) (headersAddr : Nat) (k v : String) : Heap :=
  h.setField headersAddr k (.prim v)

end Dropin
namespace Dropin

/-! ## Lemmas about the object model -/

theorem Obj.get_set {v : Type} (m : Obj v) (k k' : String) (x : v) :
    Obj.get (Obj.set m k x) k' = if k = k' then some x else Obj.get m k' := by
  induction m with
  | nil =>
      by_cases h : k = k' <;> simp [Obj.set, Obj.get, h]
  | cons p rest ih =>
      obtain ⟨k0, y⟩ := p
      by_cases h0 : k0 = k
      · subst h0
        by_cases h : k0 = k' <;> simp [Obj.set, Obj.get, h]
      · by_cases h : k0 = k'
        · subst h
          have hkk : ¬ k = k0 := fun hh => h0 hh.symm
          simp [Obj.set, Obj.get, h0, hkk]
        · simp [Obj.set, Obj.get, h0, h, ih]

theorem Obj.get_eq_none_iff {v : Type} (m : Obj v) (k : String) :
    Obj.get m k = none ↔ k ∉ Obj.keys m := by
  induction m with
  | nil => simp [Obj.get, Obj.keys]
  | cons p rest ih =>
      obtain ⟨k0, y⟩ := p
      by_cases h : k0 = k
      · subst h
        simp [Obj.get, Obj.keys]
      · have hne : ¬ k = k0 := fun hh => h hh.symm
        simp [Obj.get, Obj.keys, h, hne, ih]

theorem Obj.keys_set {v : Type} (m : Obj v) (k : String) (x : v) :
    Obj.keys (Obj.set m k x) =
      if k ∈ Obj.keys m then Obj.keys m else Obj.keys m ++ [k] := by
  induction m with
  | nil => simp [Obj.set, Obj.keys]
  | cons p rest ih =>
      obtain ⟨k0, y⟩ := p
      by_cases h0 : k0 = k
      · subst h0
        simp [Obj.set, Obj.keys]
      · have hne : ¬ k = k0 := fun hh => h0 hh.symm
        unfold Obj.keys at ih ⊢
        simp only [Obj.set, if_neg h0, List.map_cons]
        rw [ih]
        by_cases hmem : k ∈ List.map Prod.fst rest <;> simp [hmem, hne]

theorem Obj.WF_set {v : Type} (m : Obj v) (k : String) (x : v) (h : Obj.WF m) :
    Obj.WF (Obj.set m k x) := by
  unfold Obj.WF at h ⊢
  rw [Obj.keys_set]
  by_cases hmem : k ∈ Obj.keys m
  · simpa [hmem]
  · simp only [hmem, if_false]
    simp [List.nodup_append, h, hmem]

theorem Obj.spread_cons {v : Type} (a : Obj v) (k : String) (x : v) (b : Obj v) :
    Obj.spread a ((k, x) :: b) = Obj.spread (Obj.set a k x) b := rfl

theorem Obj.spread_nil {v : Type} (a : Obj v) : Obj.spread a [] = a := rfl

theorem Obj.get_spread {v : Type} (b a : Obj v) (k : String) (hb : Obj.WF b) :
    Obj.get (Obj.spread a b) k =
      match Obj.get b k with
      | some x => some x
      | none => Obj.get a k := by
  induction b generalizing a with
  | nil => simp [Obj.spread, Obj.get]
  | cons p rest ih =>
      obtain ⟨k0, x0⟩ := p
      have hcons : k0 ∉ Obj.keys rest ∧ Obj.WF rest := by
        unfold Obj.WF at hb
        simpa [Obj.keys, List.nodup_cons] using hb
      rw [Obj.spread_cons, ih _ hcons.2]
      by_cases h : k0 = k
      · subst h
        have hnone : Obj.get rest k0 = none := (Obj.get_eq_none_iff rest k0).mpr hcons.1
        simp [hnone, Obj.get, Obj.get_set]
      · simp [Obj.get, h, Obj.get_set]

theorem Obj.WF_spread {v : Type} (b a : Obj v) (ha : Obj.WF a) :
    Obj.WF (Obj.spread a b) := by
  induction b generalizing a with
  | nil => simpa [Obj.spread]
  | cons p rest ih =>
      obtain ⟨k0, x0⟩ := p
      rw [Obj.spread_cons]
      exact ih _ (Obj.WF_set a k0 x0 ha)

end Dropin
namespace Dropin

/-! ## Inversion and step lemmas for the translator -/

theorem translateOptions_ok_inv (o : Options) (d : Descriptor)
    (hd : translateOptions o = .ok d) :
    ∃ url url', resolveUrl o = some url ∧ applyQs o url = .ok url' ∧
      d = ⟨url', jsToUpperCase (jsStrOr o.method "GET"),
           (applyBody o (applyAuth o o.headers)).1,
           (applyBody o (applyAuth o o.headers)).2, o.timeout ≠ 0⟩ := by
  unfold translateOptions at hd
  cases hu : resolveUrl o with
  | none => rw [hu] at hd; simp at hd
  | some url =>
      rw [hu] at hd
      cases hq : applyQs o url with
      | error e => simp only [hq] at hd; simp at hd
      | ok url' =>
          simp only [hq] at hd
          simp only [Except.ok.injEq] at hd
          exact ⟨url, url', rfl, hq, hd.symm⟩

theorem translateOptionsJar_ok_inv (o : Options) (jar : Option CookieJarView)
    (d : Descriptor) (hd : translateOptionsJar o jar = .ok d) :
    ∃ url url', resolveUrl o = some url ∧ applyQs o url = .ok url' ∧
      d = ⟨url', jsToUpperCase (jsStrOr o.method "GET"),
           (applyBody o (applyAuth o (jarHeaders o jar url))).1,
           (applyBody o (applyAuth o (jarHeaders o jar url))).2, o.timeout ≠ 0⟩ := by
  unfold translateOptionsJar at hd
  cases hu : resolveUrl o with
  | none => rw [hu] at hd; simp at hd
  | some url =>
      rw [hu] at hd
      cases hq : applyQs o url with
      | error e => simp only [hq] at hd; simp at hd
      | ok url' =>
          simp only [hq] at hd
          simp only [Except.ok.injEq] at hd
          exact ⟨url, url', rfl, hq, hd.symm⟩

theorem applyAuth_get_ne (o : Options) (h : Obj String) (k : String)
    (hk : ¬ "Authorization" = k) :
    Obj.get (applyAuth o h) k = Obj.get h k := by
  unfold applyAuth
  cases hauth : o.auth with
  | none => rfl
  | some p =>
      obtain ⟨u, pw⟩ := p
      simp only [Obj.get_set, if_neg hk]

theorem applyBody_json (o : Options) (h : Obj String) (b : JsonVal)
    (hb : o.body = some b) (hj : o.json = true) :
    applyBody o h =
      (if strTruthy (Obj.get (Obj.set h "Content-Type" "application/json") "Accept")
       then Obj.set h "Content-Type" "application/json"
       else Obj.set (Obj.set h "Content-Type" "application/json") "Accept" "application/json",
       some (.text b.stringify)) := by
  unfold applyBody
  rw [hb, hj]

theorem applyBody_form (o : Options) (h : Obj String) (f : Obj String)
    (hn : ¬ (o.json = true ∧ o.body.isSome = true)) (hf : o.form = some f) :
    applyBody o h =
      (Obj.set h "Content-Type" "application/x-www-form-urlencoded",
       some (.text (urlSearchParamsToString f))) := by
  unfold applyBody
  cases hb : o.body with
  | some b =>
      cases hj : o.json with
      | true => exact absurd ⟨hj, by rw [hb]; rfl⟩ hn
      | false => rw [hf]
  | none =>
      cases hj : o.json <;> rw [hf]

theorem applyBody_raw (o : Options) (h : Obj String)
    (hn : ¬ (o.json = true ∧ o.body.isSome = true)) (hf : o.form = none) :
    applyBody o h =
      (h, match o.body with
          | some b => if b.truthy then some (.raw b) else none
          | none => none) := by
  unfold applyBody
  cases hb : o.body with
  | some b =>
      cases hj : o.json with
      | true => exact absurd ⟨hj, by rw [hb]; rfl⟩ hn
      | false => rw [hf]; by_cases ht : b.truthy <;> simp [ht]
  | none =>
      cases hj : o.json <;> rw [hf]

theorem applyBody_get_ne (o : Options) (h : Obj String) (k : String)
    (h1 : ¬ "Content-Type" = k) (h2 : ¬ "Accept" = k) :
    Obj.get (applyBody o h).1 k = Obj.get h k := by
  unfold applyBody
  cases hb : o.body with
  | some b =>
      cases hj : o.json with
      | true =>
          split <;> (dsimp only; split <;> simp [Obj.get_set, h1, h2])
      | false =>
          cases hf : o.form with
          | some f => simp [Obj.get_set, h1]
          | none => by_cases ht : b.truthy <;> simp [ht]
  | none =>
      cases hj : o.json <;>
        cases hf : o.form with
        | some f => simp [Obj.get_set, h1]
        | none => rfl

end Dropin
namespace Dropin

/-! ## Claim C3: body precedence -/

/-- C3: for every options record, exactly one body branch applies, evaluated
in the order (a) `json` truthy with a defined `body`: the body is serialized
to JSON text, `Content-Type: application/json` is set (overriding any
caller-supplied value) and `Accept: application/json` is set only when no
truthy `Accept` header is present; (b) otherwise `form` present: the form is
URL-encoded and `Content-Type: application/x-www-form-urlencoded` is set
(overriding any caller-supplied value); (c) otherwise a (truthy) raw body is
passed through unmodified and neither `Content-Type` nor `Accept` is
touched. -/
theorem c3_body_precedence (o : Options) (d : Descriptor)
    (hd : translateOptions o = .ok d) :
    (∀ b, o.body = some b → o.json = true →
        d.body = some (.text b.stringify) ∧
        Obj.get d.headers "Content-Type" = some "application/json" ∧
        (strTruthy (Obj.get o.headers "Accept") = true →
            Obj.get d.headers "Accept" = Obj.get o.headers "Accept") ∧
        (strTruthy (Obj.get o.headers "Accept") = false →
            Obj.get d.headers "Accept" = some "application/json")) ∧
    (¬ (o.json = true ∧ o.body.isSome = true) → ∀ f, o.form = some f →
        d.body = some (.text (urlSearchParamsToString f)) ∧
        Obj.get d.headers "Content-Type" = some "application/x-www-form-urlencoded") ∧
    (¬ (o.json = true ∧ o.body.isSome = true) → o.form = none →
        d.body = (match o.body with
                  | some b => if b.truthy then some (.raw b) else none
                  | none => none) ∧
        Obj.get d.headers "Content-Type" = Obj.get o.headers "Content-Type" ∧
        Obj.get d.headers "Accept" = Obj.get o.headers "Accept") := by
  obtain ⟨url, url', hu, hq, hdq⟩ := translateOptions_ok_inv o d hd
  subst hdq
  dsimp only
  have hCTacc :
      Obj.get (Obj.set (applyAuth o o.headers) "Content-Type" "application/json") "Accept" =
        Obj.get o.headers "Accept" := by
    rw [Obj.get_set, if_neg (by decide), applyAuth_get_ne o _ _ (by decide)]
  refine ⟨?_, ?_, ?_⟩
  · intro b hb hj
    rw [applyBody_json o (applyAuth o o.headers) b hb hj]
    dsimp only
    refine ⟨rfl, ?_, ?_, ?_⟩
    · split <;> simp [Obj.get_set]
    · intro hacc
      simp [hCTacc, hacc]
    · intro hacc
      simp [hCTacc, hacc, Obj.get_set]
  · intro hn f hf
    rw [applyBody_form o (applyAuth o o.headers) f hn hf]
    exact ⟨rfl, by simp [Obj.get_set]⟩
  · intro hn hf
    rw [applyBody_raw o (applyAuth o o.headers) hn hf]
    exact ⟨rfl, applyAuth_get_ne o _ _ (by decide), applyAuth_get_ne o _ _ (by decide)⟩

def c3Opts : Options :=
  { url := some "http://example.com/a", json := true,
    body := some (.obj [("t", .str "x")]),
    headers := [("Accept", "text/html"), ("Content-Type", "text/plain")] }

def c3Desc : Descriptor :=
  { url := "http://example.com/a", method := "GET",
    headers := [("Accept", "text/html"), ("Content-Type", "application/json")],
    body := some (.text (JsonVal.stringify (.obj [("t", .str "x")]))),
    hasTimeoutSignal := false }

/-- Witness for C3 at a concrete json-branch input: the caller-supplied
`Content-Type: text/plain` is overridden while the caller's truthy `Accept`
header survives. -/
theorem c3_body_precedence_witness :
    translateOptions c3Opts = .ok c3Desc ∧
    c3Desc.body = some (.text (JsonVal.stringify (.obj [("t", .str "x")]))) ∧
    Obj.get c3Desc.headers "Content-Type" = some "application/json" ∧
    Obj.get c3Desc.headers "Accept" = some "text/html" := by
  have h := (c3_body_precedence c3Opts c3Desc (by rfl)).1 _ rfl rfl
  exact ⟨by rfl, h.1, h.2.1, (h.2.2.1 (by rfl)).trans (by rfl)⟩

end Dropin
namespace Dropin

/-! ## Claims C1, C2, C4, C5, C7: the two dispatch paths -/

def okUrlOpts : Options := { url := some "http://example.com/a" }

def res399 : TransportResponse := ⟨399, "Custom Status", [], "body399"⟩

def res400 : TransportResponse := ⟨400, "Bad Request", [], "body400"⟩

/-- C1 (divergence, evaluated at the failing input): the promise path
classifies with `res.ok` (success only for status in [200,300)), so a
completed 399 response is rejected as an HTTP error there, while the
callback path classifies with `statusCode >= 400` and reports the same 399
response as a success; a 400 response is a failure on both paths.  The
claimed uniform [200,400) success window is therefore false for the promise
path (contradicting the source's own comment that only 4xx/5xx are treated
as errors). -/
theorem c1_status_classification_divergence :
    (dropinInit okUrlOpts false (.ok res399)).promise =
        .rejectedHttp 399 (.text "body399") ∧
    (callbackRun okUrlOpts (.ok res399)).error = none ∧
    (dropinInit okUrlOpts false (.ok res400)).promise =
        .rejectedHttp 400 (.text "body400") ∧
    (callbackRun okUrlOpts (.ok res400)).error = some (.http 400) :=
  ⟨rfl, rfl, rfl, rfl⟩

def noUrlOpts : Options := {}

/-- C2 counterexample: with the URL absent, the claim says the error is
signalled synchronously during construction and not via the promise; in
fact construction succeeds without validation and the missing-URL error is
delivered asynchronously through the promise rejection of `_init`. -/
theorem c2_counterexample :
    dropinConstruct noUrlOpts = .ok ⟨noUrlOpts, false⟩ ∧
    (dropinInit noUrlOpts false (.networkError "never dispatched")).promise =
      .rejectedSync .missingURL :=
  ⟨rfl, rfl⟩

/-- C2 (amended): when the URL is absent from the canonical options, a
no-callback call constructs and returns the `DropinRequest` without
throwing; the missing-URL error is delivered asynchronously via the
rejection of the promise view (with an error event), regardless of piping
or transport outcome.  In callback mode the error reaches the callback as
its first argument (with null response and body) and is never thrown. -/
theorem c2_missing_url_async (o : Options) (h : resolveUrl o = none) :
    dropinConstruct o = .ok ⟨o, false⟩ ∧
    (∀ isPiped outcome, dropinInit o isPiped outcome =
        ⟨.rejectedSync .missingURL, none, true⟩) ∧
    (∀ outcome, callbackRun o outcome = ⟨some (.sync .missingURL), none, none⟩) := by
  have ht : translateOptions o = .error .missingURL := by
    unfold translateOptions
    rw [h]
  refine ⟨rfl, fun isPiped outcome => ?_, fun outcome => ?_⟩
  · unfold dropinInit
    rw [ht]
  · unfold callbackRun
    rw [ht]

/-- Witness for C2's amended theorem at the concrete empty options record. -/
theorem c2_missing_url_async_witness :
    resolveUrl noUrlOpts = none ∧
    dropinInit noUrlOpts true (.ok res399) =
      ⟨.rejectedSync .missingURL, none, true⟩ ∧
    callbackRun noUrlOpts (.networkError "ENOTFOUND") =
      ⟨some (.sync .missingURL), none, none⟩ :=
  ⟨rfl, (c2_missing_url_async noUrlOpts rfl).2.1 true (.ok res399),
   (c2_missing_url_async noUrlOpts rfl).2.2 (.networkError "ENOTFOUND")⟩

/-- C4 counterexample: on a transport-level (network) failure the fetch
promise rejects before `responseForCallback` is assigned, so the callback
receives `null` as its second argument — not a constructed legacy
response, contradicting the claim. -/
theorem c4_counterexample :
    callbackRun okUrlOpts (.networkError "ECONNREFUSED") =
      ⟨some (.transport "ECONNREFUSED"), none, none⟩ :=
  rfl

/-- C4 (amended): in callback mode the legacy response is constructed and
delivered for every completed response, including HTTP-failure statuses;
it is `null` both for synchronous pre-dispatch errors and for
transport-level failures that occur before the response metadata arrives;
a failure during body consumption after the metadata arrived still
delivers the already-constructed legacy response (without a body). -/
theorem c4_legacy_response_delivery (o : Options) (d : Descriptor)
    (hok : translateOptions o = .ok d) :
    (∀ res, (callbackRun o (.ok res)).response =
        some ⟨res.status, res.headers, some (consumeBody res o)⟩) ∧
    (∀ m, (callbackRun o (.networkError m)).response = none) ∧
    (∀ st hs m, (callbackRun o (.bodyError st hs m)).response = some ⟨st, hs, none⟩) := by
  unfold callbackRun
  rw [hok]
  refine ⟨fun res => ?_, fun m => rfl, fun st hs m => rfl⟩
  by_cases hst : res.status ≥ 400 <;> simp [hst]

/-- Witness for C4's amended theorem: a completed 404 response still hands
the callback a constructed legacy response carrying status and body. -/
theorem c4_legacy_response_delivery_witness :
    (callbackRun okUrlOpts (.ok res400)).response =
      some ⟨400, [], some (.text "body400")⟩ :=
  (c4_legacy_response_delivery okUrlOpts
    ⟨"http://example.com/a", "GET", [], none, false⟩ rfl).1 res400

end Dropin
namespace Dropin

/-- C5: for the same successful (`res.ok`) response of a no-callback call,
a stream destination attached before resolution makes `_init` forward the
body bytes into the stream and resolve the promise view with the transport
response itself (the metadata), while with no destination attached the
promise view resolves with the body parsed by `consumeBody` per the
response-adapter rules, and nothing is streamed. -/
theorem c5_stream_vs_buffer (o : Options) (d : Descriptor) (res : TransportResponse)
    (hok : translateOptions o = .ok d) (hres : res.isOk = true) :
    dropinInit o true (.ok res) = ⟨.resolvedResponse res, some res.bodyText, false⟩ ∧
    dropinInit o false (.ok res) = ⟨.resolvedBody (consumeBody res o), none, false⟩ := by
  unfold dropinInit
  rw [hok]
  simp [hres]

def res200 : TransportResponse :=
  ⟨200, "OK", [("content-type", "text/plain")], "hello body"⟩

/-- Witness for C5 at a concrete 200 response. -/
theorem c5_stream_vs_buffer_witness :
    dropinInit okUrlOpts true (.ok res200) =
      ⟨.resolvedResponse res200, some "hello body", false⟩ ∧
    dropinInit okUrlOpts false (.ok res200) =
      ⟨.resolvedBody (.text "hello body"), none, false⟩ :=
  c5_stream_vs_buffer okUrlOpts ⟨"http://example.com/a", "GET", [], none, false⟩
    res200 rfl rfl

/-- C7: with `json` requested and encoding not disabled, a body whose text
fails to JSON-parse is returned silently as the raw text: `consumeBody`
falls back to the text, a callback-mode request with a sub-400 status still
reports no error and hands the raw text to the callback, and a promise-mode
request with an `ok` status still resolves (with the raw text). -/
theorem c7_malformed_json_silent (o : Options) (d : Descriptor) (res : TransportResponse)
    (hok : translateOptions o = .ok d) (hjson : o.json = true)
    (henc : o.encodingNull = false) (hparse : jsonParse res.bodyText = none) :
    consumeBody res o = .text res.bodyText ∧
    (res.status < 400 →
        (callbackRun o (.ok res)).error = none ∧
        (callbackRun o (.ok res)).body = some (.text res.bodyText)) ∧
    (res.isOk = true →
        (dropinInit o false (.ok res)).promise = .resolvedBody (.text res.bodyText)) := by
  have hcb : consumeBody res o = .text res.bodyText := by
    unfold consumeBody
    rw [henc, hjson, hparse]
    rfl
  refine ⟨hcb, fun hst => ?_, fun hst => ?_⟩
  · have hst' : ¬ res.status ≥ 400 := by omega
    unfold callbackRun
    rw [hok]
    simp [hst', hcb]
  · unfold dropinInit
    rw [hok]
    simp [hst, hcb]

def jsonOpts : Options := { url := some "http://example.com/a", json := true }

def resBadJson : TransportResponse := ⟨200, "OK", [], "\x7bnot json!"⟩

/-- Witness for C7 at a concrete malformed JSON body. -/
theorem c7_malformed_json_silent_witness :
    jsonParse "\x7bnot json!" = none ∧
    consumeBody resBadJson jsonOpts = .text "\x7bnot json!" ∧
    (callbackRun jsonOpts (.ok resBadJson)).error = none ∧
    (dropinInit jsonOpts false (.ok resBadJson)).promise =
      .resolvedBody (.text "\x7bnot json!") := by
  have h := c7_malformed_json_silent jsonOpts
    ⟨"http://example.com/a", "GET", [], none, false⟩ resBadJson rfl rfl rfl (by rfl)
  exact ⟨by rfl, h.1, (h.2.1 (by decide)).1, h.2.2 rfl⟩

end Dropin
namespace Dropin

/-! ## Claim C8: query-string merging -/

/-- C8: with a `qs` mapping present, the target URL is rebuilt with every
`qs` entry appended, in order, to the parsed query component, and the whole
query is re-serialized with the standard percent-encoder; entries whose key
already occurs in the URL's query string are appended as additional entries
— the original entries all survive, as the filter identity states for every
key. -/
theorem c8_qs_append (o : Options) (qs : Obj String) (u : URLM) (url : String)
    (d : Descriptor) (hqs : o.qs = some qs) (hres : resolveUrl o = some url)
    (hu : urlParse url = some u) (hd : translateOptions o = .ok d) :
    d.url = URLM.render { u with query := u.query ++ qs } ∧
    (∀ k, (u.query ++ qs).filter (fun p => p.1 = k) =
        u.query.filter (fun p => p.1 = k) ++ qs.filter (fun p => p.1 = k)) := by
  obtain ⟨url0, url', hu0, hq, hdq⟩ := translateOptions_ok_inv o d hd
  have huu : url = url0 := Option.some_inj.mp (hres.symm.trans hu0)
  subst huu
  unfold applyQs at hq
  rw [hqs, hu] at hq
  simp only [Except.ok.injEq] at hq
  subst hdq
  exact ⟨hq.symm, fun k => by simp⟩

def c8Opts : Options :=
  { url := some "http://example.com/p?a=1", qs := some [("a", "2 x")] }

def c8URL : URLM := ⟨"http://example.com/p", [("a", "1")], none⟩

def c8Desc : Descriptor := ⟨"http://example.com/p?a=1&a=2+x", "GET", [], none, false⟩

/-- Witness for C8: a `qs` key duplicating an existing query key is appended
(`?a=1&a=2+x`), never overwriting, and the value `"2 x"` is percent-encoded
(space becomes `+` under the form-urlencoded serializer). -/
theorem c8_qs_append_witness :
    translateOptions c8Opts = .ok c8Desc ∧
    urlParse "http://example.com/p?a=1" = some c8URL ∧
    c8Desc.url = URLM.render { c8URL with query := c8URL.query ++ [("a", "2 x")] } ∧
    URLM.render { c8URL with query := c8URL.query ++ [("a", "2 x")] } =
      "http://example.com/p?a=1&a=2+x" := by
  refine ⟨by rfl, by rfl, ?_, by rfl⟩
  exact (c8_qs_append c8Opts [("a", "2 x")] c8URL "http://example.com/p?a=1" c8Desc
    rfl rfl (by rfl) (by rfl)).1

/-! ## Claim C9: cookie jar versus caller-supplied Cookie header -/

/-- C9: when a jar is active, the jar's stored cookie string for the target
URL is set as the `Cookie` header only when it is non-empty; when the jar
yields the empty string, the `Cookie` header (caller-supplied or absent) is
left exactly as it was. -/
theorem c9_jar_cookie (o : Options) (j : CookieJarView) (url : String)
    (d : Descriptor) (hres : resolveUrl o = some url)
    (hd : translateOptionsJar o (some j) = .ok d) :
    (j url = "" → Obj.get d.headers "Cookie" = Obj.get o.headers "Cookie") ∧
    (j url ≠ "" → Obj.get d.headers "Cookie" = some (j url)) := by
  obtain ⟨url0, url', hu0, hq, hdq⟩ := translateOptionsJar_ok_inv o (some j) d hd
  have huu : url = url0 := Option.some_inj.mp (hres.symm.trans hu0)
  subst huu
  subst hdq
  dsimp only
  have hck : ∀ hh : Obj String,
      Obj.get (applyBody o (applyAuth o hh)).1 "Cookie" = Obj.get hh "Cookie" := by
    intro hh
    rw [applyBody_get_ne o _ _ (by decide) (by decide),
        applyAuth_get_ne o _ _ (by decide)]
  constructor
  · intro hemp
    rw [hck]
    unfold jarHeaders
    dsimp only
    rw [if_neg (by simp [hemp])]
  · intro hne
    rw [hck]
    unfold jarHeaders
    dsimp only
    rw [if_pos hne]
    simp [Obj.get_set]

def c9Opts : Options :=
  { url := some "http://example.com/a", headers := [("Cookie", "old=1")] }

def c9JarFull : CookieJarView := fun _ => "sid=42"

def c9JarEmpty : CookieJarView := fun _ => ""

def c9DescFull : Descriptor :=
  ⟨"http://example.com/a", "GET", [("Cookie", "sid=42")], none, false⟩

def c9DescEmpty : Descriptor :=
  ⟨"http://example.com/a", "GET", [("Cookie", "old=1")], none, false⟩

/-- Witness for C9: a jar yielding `sid=42` replaces the caller's `Cookie`
header; a jar yielding the empty string leaves the caller's header intact. -/
theorem c9_jar_cookie_witness :
    translateOptionsJar c9Opts (some c9JarFull) = .ok c9DescFull ∧
    translateOptionsJar c9Opts (some c9JarEmpty) = .ok c9DescEmpty ∧
    Obj.get c9DescFull.headers "Cookie" = some "sid=42" ∧
    Obj.get c9DescEmpty.headers "Cookie" = some "old=1" := by
  refine ⟨by rfl, by rfl, ?_, ?_⟩
  · exact (c9_jar_cookie c9Opts c9JarFull "http://example.com/a" c9DescFull
      rfl (by rfl)).2 (by decide)
  · exact ((c9_jar_cookie c9Opts c9JarEmpty "http://example.com/a" c9DescEmpty
      rfl (by rfl)).1 rfl).trans (by rfl)

end Dropin
namespace Dropin

/-! ## Claim C6: chaining `.defaults()` -/

theorem Obj.get_spread_assoc {v : Type} (a b c : Obj v) (hb : Obj.WF b)
    (hc : Obj.WF c) (k : String) :
    Obj.get (Obj.spread (Obj.spread a b) c) k =
      Obj.get (Obj.spread a (Obj.spread b c)) k := by
  rw [Obj.get_spread c (Obj.spread a b) k hc, Obj.get_spread b a k hb,
      Obj.get_spread (Obj.spread b c) a k (Obj.WF_spread c b hb),
      Obj.get_spread c b k hc]
  cases Obj.get c k <;> cases Obj.get b k <;> simp

instance (d : DefaultsRec) : Decidable d.WF :=
  inferInstanceAs (Decidable (_ ∧ _))

/-- C6: for well-formed partial option records `x` and `y`, chaining
`.defaults(x).defaults(y)` produces the same effective default options as a
single `.defaults(merge(x, y))`, where `merge` follows the spec's words:
partial-wins per key, except the headers map, which is merged key-wise. -/
theorem c6_defaults_chain (d x y : DefaultsRec) (hx : x.WF) (hy : y.WF) :
    DefaultsRec.equiv (defaultsStep (defaultsStep d x) y)
      (defaultsStep d (specMerge x y)) := by
  obtain ⟨dh, dother⟩ := d
  obtain ⟨xh, xother⟩ := x
  obtain ⟨yh, yother⟩ := y
  obtain ⟨hxo, hxh⟩ := hx
  obtain ⟨hyo, hyh⟩ := hy
  rcases xh with _ | b <;> rcases yh with _ | c <;> rcases dh with _ | a <;>
    exact ⟨rfl,
      fun k => by first
        | rfl
        | exact Obj.get_spread_assoc a b c hxh hyh k,
      fun k => Obj.get_spread_assoc dother xother yother hxo hyo k⟩

def c6d : DefaultsRec := ⟨some [("A", "1"), ("B", "2")], [("timeout", .num 5)]⟩

def c6x : DefaultsRec := ⟨some [("B", "3"), ("C", "4")], [("json", .bool true)]⟩

def c6y : DefaultsRec := ⟨some [("C", "5")], [("timeout", .num 9)]⟩

/-- Witness for C6 at concrete overlapping defaults records. -/
theorem c6_defaults_chain_witness :
    DefaultsRec.WF c6x ∧ DefaultsRec.WF c6y ∧
    DefaultsRec.equiv (defaultsStep (defaultsStep c6d c6x) c6y)
      (defaultsStep c6d (specMerge c6x c6y)) :=
  ⟨by decide, by decide, c6_defaults_chain c6d c6x c6y (by decide) (by decide)⟩

end Dropin
namespace Dropin

/-! ## Claim C10: no mutation of caller-supplied objects -/

theorem Heap.size_alloc (h : Heap) (o : HObj) : (h.alloc o).1.size = h.size + 1 := by
  simp [Heap.alloc, Heap.size]

theorem Heap.alloc_addr (h : Heap) (o : HObj) : (h.alloc o).2 = h.size := rfl

theorem Heap.size_setField (h : Heap) (addr : Nat) (k : String) (v : HVal) :
    (h.setField addr k v).size = h.size := by
  simp [Heap.setField, Heap.size]

theorem Heap.agreesBelow_alloc (h : Heap) (o : HObj) (n : Nat) (hn : n ≤ h.size) :
    Heap.agreesBelow h (h.alloc o).1 n := by
  intro a ha
  have : a < h.objs.length := lt_of_lt_of_le ha hn
  simp [Heap.alloc, Heap.lookup, List.getElem?_append_left this]

theorem Heap.agreesBelow_setField (h : Heap) (addr : Nat) (k : String) (v : HVal)
    (n : Nat) (hn : n ≤ addr) :
    Heap.agreesBelow h (h.setField addr k v) n := by
  intro a ha
  have : ¬ addr = a := by omega
  simp [Heap.setField, Heap.lookup, List.getElem?_set_ne this]

theorem Heap.agreesBelow_trans {h1 h2 h3 : Heap} {n : Nat}
    (h12 : Heap.agreesBelow h1 h2 n) (h23 : Heap.agreesBelow h2 h3 n) :
    Heap.agreesBelow h1 h3 n :=
  fun a ha => (h23 a ha).trans (h12 a ha)

theorem Heap.agreesBelow_mono {h1 h2 : Heap} {n m : Nat} (hnm : n ≤ m)
    (hh : Heap.agreesBelow h1 h2 m) : Heap.agreesBelow h1 h2 n :=
  fun a ha => hh a (lt_of_lt_of_le ha hnm)

/-- `buildOpts` never touches a pre-existing address, the heap only grows,
and the returned `opts` address is fresh relative to the input heap. -/
theorem buildOpts_frame (h : Heap) (uriArg : JsArg) (optionsArg : Option Nat) :
    Heap.agreesBelow h (buildOpts h uriArg optionsArg).1 h.size ∧
    h.size ≤ (buildOpts h uriArg optionsArg).1.size ∧
    h.size ≤ (buildOpts h uriArg optionsArg).2 := by
  rcases uriArg with u | s | _ <;> rcases optionsArg with _ | oa <;>
    unfold buildOpts <;> dsimp only
  · -- uri object, no options object
    refine ⟨Heap.agreesBelow_trans (Heap.agreesBelow_alloc h [] h.size le_rfl)
      (Heap.agreesBelow_alloc _ _ h.size ?_), ?_, ?_⟩ <;>
      simp [Heap.size, Heap.alloc, Heap.setField]
  · -- uri object, options object
    refine ⟨Heap.agreesBelow_trans (Heap.agreesBelow_trans
        (Heap.agreesBelow_alloc h [] h.size le_rfl)
        (Heap.agreesBelow_alloc _ _ h.size ?_))
      (Heap.agreesBelow_alloc _ _ h.size ?_), ?_, ?_⟩ <;>
      simp [Heap.size, Heap.alloc, Heap.setField]
  · -- uri string, no options object
    refine ⟨Heap.agreesBelow_trans (Heap.agreesBelow_alloc h [] h.size le_rfl)
      (Heap.agreesBelow_setField _ _ _ _ h.size ?_), ?_, ?_⟩ <;>
      simp [Heap.size, Heap.alloc, Heap.setField]
  · -- uri string, options object
    refine ⟨Heap.agreesBelow_trans (Heap.agreesBelow_trans
        (Heap.agreesBelow_alloc h [] h.size le_rfl)
        (Heap.agreesBelow_setField _ _ _ _ h.size ?_))
      (Heap.agreesBelow_alloc _ _ h.size ?_), ?_, ?_⟩ <;>
      simp [Heap.size, Heap.alloc, Heap.setField]
  · -- uri neither, no options object
    exact ⟨Heap.agreesBelow_alloc h [] h.size le_rfl,
      by simp [Heap.size, Heap.alloc], by simp [Heap.alloc_addr]⟩
  · -- uri neither, options object
    refine ⟨Heap.agreesBelow_trans (Heap.agreesBelow_alloc h [] h.size le_rfl)
      (Heap.agreesBelow_alloc _ _ h.size ?_), ?_, ?_⟩ <;>
      simp [Heap.size, Heap.alloc, Heap.setField]

end Dropin
namespace Dropin

theorem Heap.getObj_alloc (h : Heap) (o : HObj) :
    (h.alloc o).1.getObj (h.alloc o).2 = o := by
  simp [Heap.alloc, Heap.getObj, List.getD, List.getElem?_append_right (le_refl h.objs.length)]

theorem mainRequestPrep_frame (h : Heap) (uriArg : JsArg) (optionsArg : Option Nat)
    (defaultsAddr : Nat) :
    Heap.agreesBelow h (mainRequestPrep h uriArg optionsArg defaultsAddr).1 h.size := by
  unfold mainRequestPrep
  dsimp only
  obtain ⟨hagree, hsize, _⟩ := buildOpts_frame h uriArg optionsArg
  exact Heap.agreesBelow_trans hagree (Heap.agreesBelow_alloc _ _ h.size hsize)

theorem verbPrep_frame (h : Heap) (uriArg : JsArg) (optionsArg : Option Nat)
    (methodName : String) (defaultsAddr : Nat) :
    Heap.agreesBelow h (verbPrep h uriArg optionsArg methodName defaultsAddr).1 h.size := by
  unfold verbPrep
  dsimp only
  obtain ⟨hagree, hsize, haddr⟩ := buildOpts_frame h uriArg optionsArg
  have h4a := Heap.agreesBelow_trans hagree
    (Heap.agreesBelow_setField (buildOpts h uriArg optionsArg).1
      (buildOpts h uriArg optionsArg).2 "method" (.prim (jsToUpperCase methodName))
      h.size haddr)
  have h4s : h.size ≤ ((buildOpts h uriArg optionsArg).1.setField
      (buildOpts h uriArg optionsArg).2 "method"
      (.prim (jsToUpperCase methodName))).size := by
    rw [Heap.size_setField]
    exact hsize
  exact Heap.agreesBelow_trans h4a
    (Heap.agreesBelow_mono h4s (mainRequestPrep_frame _ _ none defaultsAddr))

/-- C10: no call through the main entry point or a verb-shortcut method
writes to any pre-existing heap object — the caller's `uri` and `options`
objects and the instance's `defaultOptions` record (all living at addresses
below the starting heap size) are untouched; the option merging and the
verb's `method` override happen on fresh shallow copies; and the headers
map handed to the transport is a fresh object whose entries are a copy of
the caller's headers object, with later header writes hitting only that
fresh object. -/
theorem c10_no_caller_mutation (h : Heap) (uriArg : JsArg) (optionsArg : Option Nat)
    (methodName : String) (defaultsAddr finalAddr : Nat) (a : Nat) (ha : a < h.size) :
    (mainRequestPrep h uriArg optionsArg defaultsAddr).1.lookup a = h.lookup a ∧
    (verbPrep h uriArg optionsArg methodName defaultsAddr).1.lookup a = h.lookup a ∧
    (translateHeadersCopy h finalAddr).1.lookup a = h.lookup a ∧
    (∀ k v, (setHeaderField (translateHeadersCopy h finalAddr).1
        (translateHeadersCopy h finalAddr).2 k v).lookup a = h.lookup a) ∧
    (translateHeadersCopy h finalAddr).2 = h.size ∧
    (translateHeadersCopy h finalAddr).1.getObj (translateHeadersCopy h finalAddr).2 =
      (match Obj.get (h.getObj finalAddr) "headers" with
       | some (.ref b) => h.getObj b
       | _ => []) := by
  refine ⟨mainRequestPrep_frame h uriArg optionsArg defaultsAddr a ha,
    verbPrep_frame h uriArg optionsArg methodName defaultsAddr a ha,
    ?_, fun k v => ?_, rfl, ?_⟩
  · exact Heap.agreesBelow_alloc h _ h.size le_rfl a ha
  · exact Heap.agreesBelow_trans (Heap.agreesBelow_alloc h _ h.size le_rfl)
      (Heap.agreesBelow_setField _ _ _ _ h.size le_rfl) a ha
  · exact Heap.getObj_alloc h _

def c10Heap : Heap :=
  ⟨[[("json", HVal.prim "1")],
    [("headers", HVal.ref 2)],
    [("Accept", HVal.prim "x")]]⟩

/-- Witness for C10: with the defaults record at address 0, the caller's
options object at address 1 and the caller's headers object at address 2, a
verb-shortcut call leaves all three untouched, and the headers copy made
for the transport equals the caller's headers entries. -/
theorem c10_no_caller_mutation_witness :
    (2 : Nat) < c10Heap.size ∧
    (verbPrep c10Heap (.str "http://example.com/a") (some 1) "post" 0).1.lookup 2 =
      c10Heap.lookup 2 ∧
    (mainRequestPrep c10Heap (.str "http://example.com/a") (some 1) 0).1.lookup 2 =
      c10Heap.lookup 2 ∧
    (translateHeadersCopy c10Heap 1).1.getObj (translateHeadersCopy c10Heap 1).2 =
      [("Accept", HVal.prim "x")] := by
  have h := c10_no_caller_mutation c10Heap (.str "http://example.com/a") (some 1)
    "post" 0 1 2 (by decide)
  exact ⟨by decide, h.2.1, h.1, h.2.2.2.2.2.trans (by rfl)⟩

end Dropin
